import Mathlib

/-!
Shallow embedding of `src/nni_manager/common/utils.ts` (trial-process launch
and lifecycle utilities) and proofs about the behaviour its specification
describes.

Conventions used throughout:
* `process.platform` is modelled by a `platform : String` argument; the code
  only ever compares it with the literal `"win32"`.
* JavaScript `undefined`-able values are modelled with `Option`; the
  truthiness test `if (x)` on an object-or-undefined value is `Option.isSome`.
* Promise-producing functions are modelled by pure functions from their
  inputs plus the relevant outcome of the awaited external effects (e.g. the
  stdout of an external command, or whether `kill` succeeded).
* Structured JS values passed to `JSON.stringify` are modelled by the `Json`
  inductive below.
-/

/-- Result of a JS string containment test used in several theorems:
`strContains s t` holds when `s` occurs as a contiguous substring of `t`. -/
def strContains (s t : String) : Prop := s.data <:+: t.data

instance (s t : String) : Decidable (strContains s t) :=
  inferInstanceAs (Decidable (s.data <:+: t.data))

/-- Model of a structured JavaScript value, the payload passed as
`classArgs` to the command line builder (cf. the example payloads in the
doc comment of `getMsgDispatcherCommand` in the source). -/
inductive Json where
  | null
  | bool (b : Bool)
  | num (n : Int)
  | str (s : String)
  | arr (elems : List Json)
  | obj (fields : List (String × Json))

/-- Lowercase hexadecimal digit, used for JSON control-character escapes. -/
def hexDigit (n : Nat) : Char :=
  Char.ofNat (if n < 10 then 48 + n else 87 + n)

/-- Escape of a single character inside a JSON string literal, following the
serialization `JSON.stringify` applies to JS strings. -/
def jsonEscapeChar (c : Char) : List Char :=
  if c = '"' then ['\\', '"']
  else if c = '\\' then ['\\', '\\']
  else if c = '\n' then ['\\', 'n']
  else if c = '\r' then ['\\', 'r']
  else if c = '\t' then ['\\', 't']
  else if c.toNat = 8 then ['\\', 'b']
  else if c.toNat = 12 then ['\\', 'f']
  else if c.toNat < 32 then
    ['\\', 'u', '0', '0', hexDigit (c.toNat / 16), hexDigit (c.toNat % 16)]
  else [c]

/-- JSON encoding of a string: the quoted, escaped form produced by
`JSON.stringify` applied to a JS string. -/
def jsonQuote (s : String) : String :=
  String.mk ('"' :: (s.data.map jsonEscapeChar).flatten ++ ['"'])

mutual

/-- Model of `JSON.stringify` on structured values (one level of encoding). -/
def Json.stringify : Json → String
  | .null => "null"
  | .bool true => "true"
  | .bool false => "false"
  | .num n => toString n
  | .str s => jsonQuote s
  | .arr xs => "[" ++ Json.stringifyArr xs ++ "]"
  | .obj fs => "\x7b" ++ Json.stringifyObj fs ++ "\x7d"

/-- Comma-separated serialization of JSON array elements. -/
def Json.stringifyArr : List Json → String
  | [] => ""
  | [x] => Json.stringify x
  | x :: xs => Json.stringify x ++ "," ++ Json.stringifyArr xs

/-- Comma-separated serialization of JSON object fields. -/
def Json.stringifyObj : List (String × Json) → String
  | [] => ""
  | [(k, v)] => jsonQuote k ++ ":" ++ Json.stringify v
  | (k, v) :: fs => jsonQuote k ++ ":" ++ Json.stringify v ++ "," ++ Json.stringifyObj fs

end

/-- Embedding of `crossPlatformStringify` (utils.ts lines 147-154): on
`win32` one application of `JSON.stringify`; on every other platform
`JSON.stringify(JSON.stringify(args))`, i.e. the serialization of `args`
re-encoded as a JSON string literal (`Json.str`). -/
def crossPlatformStringify (platform : String) (args : Json) : String :=
  if platform == "win32" then
    Json.stringify args
  else
    Json.stringify (Json.str (Json.stringify args))

/-- Model of a tuner/assessor/advisor description as consumed by
`getMsgDispatcherCommand`: a JS object whose fields may each be absent
(`undefined`). -/
structure DispatcherSpec where
  className : Option String
  classArgs : Option Json
  codeDir : Option String
  classFileName : Option String

/-- Rendering of a possibly-undefined value inside a JS template literal:
`undefined` prints as the string `undefined`. -/
def jsTemplate : Option String → String
  | some s => s
  | none => "undefined"

/-- Segment emitted for an optional `codeDir`/`classFileName` field: the
source guards each with `x !== undefined && x.length > 1`
(utils.ts lines 203-208, 214-219, 226-231); `pre` is the literal flag text
up to and including the space before the interpolated value. -/
def optField (pre : String) (v : Option String) : List String :=
  match v with
  | some s => if s.length > 1 then [pre ++ s] else []
  | none => []

/-- Segment emitted for a `classArgs` payload: guarded only by
`classArgs !== undefined`, serialized with `crossPlatformStringify`. -/
def argField (platform : String) (pre : String) (v : Option Json) : List String :=
  match v with
  | some a => [pre ++ crossPlatformStringify platform a]
  | none => []

/-- Command segments appended in the advisor branch of
`getMsgDispatcherCommand` (utils.ts lines 198-208). -/
def advisorSegments (platform : String) (adv : DispatcherSpec) : List String :=
  [" --advisor_class_name " ++ jsTemplate adv.className]
    ++ argField platform " --advisor_args " adv.classArgs
    ++ optField " --advisor_directory " adv.codeDir
    ++ optField " --advisor_class_filename " adv.classFileName

/-- Command segments appended for the tuner in the tuner/assessor branch
(utils.ts lines 210-219). -/
def tunerSegments (platform : String) (tu : DispatcherSpec) : List String :=
  [" --tuner_class_name " ++ jsTemplate tu.className]
    ++ argField platform " --tuner_args " tu.classArgs
    ++ optField " --tuner_directory " tu.codeDir
    ++ optField " --tuner_class_filename " tu.classFileName

/-- Command segments appended for the assessor: the whole group is guarded
by `assessor !== undefined && assessor.className !== undefined`
(utils.ts lines 221-232). -/
def assessorSegments (platform : String) (assessor : Option DispatcherSpec) : List String :=
  match assessor with
  | some a =>
    match a.className with
    | some cn =>
      [" --assessor_class_name " ++ cn]
        ++ argField platform " --assessor_args " a.classArgs
        ++ optField " --assessor_directory " a.codeDir
        ++ optField " --assessor_class_filename " a.classFileName
    | none => []
  | none => []

/-- Every `command += s` of `getMsgDispatcherCommand` (utils.ts
lines 182-236) in order, as a list of the appended segments; the final
command string is their concatenation. The two `throw new Error(...)`
statements become the `Except.error` cases. -/
def dispatcherSegments (platform : String) (tuner assessor advisor : Option DispatcherSpec)
    (multiPhase multiThread : Bool) : Except String (List String) :=
  if (tuner.isSome || assessor.isSome) && advisor.isSome then
    .error "Error: specify both tuner/assessor and advisor is not allowed"
  else if !tuner.isSome && !advisor.isSome then
    .error "Error: specify neither tuner nor advisor is not allowed"
  else
    let base := ["python3 -m nni"]
      ++ (if multiPhase then [" --multi_phase"] else [])
      ++ (if multiThread then [" --multi_thread"] else [])
    match advisor with
    | some adv => .ok (base ++ advisorSegments platform adv)
    | none =>
      match tuner with
      | some tu => .ok (base ++ tunerSegments platform tu ++ assessorSegments platform assessor)
      | none => .error "unreachable: guarded by the previous checks"

/-- Embedding of `getMsgDispatcherCommand` (utils.ts lines 182-236): the
concatenation of the appended segments, or the thrown error. -/
def getMsgDispatcherCommand (platform : String) (tuner assessor advisor : Option DispatcherSpec)
    (multiPhase multiThread : Bool) : Except String String :=
  (dispatcherSegments platform tuner assessor advisor multiPhase multiThread).map String.join

/-- Embedding of `charMap` (utils.ts lines 97-105): indices below 26 map to
lowercase letters, below 52 to uppercase letters, the rest to digits. -/
def charMap (index : Nat) : Nat :=
  if index < 26 then index + 97
  else if index < 52 then index - 26 + 65
  else index - 52 + 48

/-- Character codes produced by the loop of `uniqueString` (utils.ts
lines 121-124): position `i ≥ 1` pushes `charMap (num % 62)` and divides
`num` by 62 (the division is exact integer division since `num : Nat`,
matching `Math.floor`). -/
def uniqueStringRest : Nat → Nat → List Nat
  | _, 0 => []
  | num, k + 1 => charMap (num % 62) :: uniqueStringRest (num / 62) k

/-- Embedding of `uniqueString` (utils.ts lines 112-127), parameterized by
the bytes returned by `randomBytes` (the `byteLength` computation only
chooses how many random bytes are drawn and does not affect the shape of
the result, so the byte list is taken as an argument). `num` is the fold
`a * 256 + b` over the bytes; the first character comes from
`charMap (num % 52)`, the rest from the base-62 loop. -/
def uniqueString (bytes : List Nat) (len : Nat) : String :=
  if len = 0 then ""
  else
    let num := bytes.foldl (fun a b => a * 256 + b) 0
    let codes := charMap (num % 52) :: uniqueStringRest (num / 52) (len - 1)
    String.mk (codes.map Char.ofNat)

/-- Longest leading run of decimal digits, as consumed by `parseInt`. -/
def parseIntDigits (cs : List Char) : Option Nat :=
  let ds := cs.takeWhile fun c => decide ('0' ≤ c) && decide (c ≤ '9')
  if ds = [] then none
  else some (ds.foldl (fun a c => a * 10 + (c.toNat - 48)) 0)

/-- Model of JavaScript `parseInt(s)` (base 10, no `0x` prefix in the
inputs of interest): leading whitespace is skipped, an optional sign is
consumed, then the longest digit prefix is read; `none` models `NaN`. -/
def jsParseInt (s : String) : Option Int :=
  let cs := s.data.dropWhile fun c => c = ' ' || c = '\t' || c = '\n' || c = '\r'
  match cs with
  | '-' :: rest => (parseIntDigits rest).map fun n => -(n : Int)
  | '+' :: rest => (parseIntDigits rest).map fun n => (n : Int)
  | _ => (parseIntDigits cs).map fun n => (n : Int)

/-- Errors thrown by `countFilesRecursively`. -/
inductive ProbeError where
  | notFound (directory : String)
  | timeout (directory : String)
deriving DecidableEq, Repr

/-- Embedding of `countFilesRecursively` (utils.ts lines 331-357),
parameterized by the outcomes of its awaited effects: whether
`fs.existsSync(directory)` holds, whether the 5-second timer fired before
the external `find directory -type f | wc -l` command settled, and the
stdout that command produced. The body initializes `fileCount = -1` and
overwrites it only when `result.stdout && parseInt(result.stdout)` is
truthy (nonempty stdout, and a parse result that is neither `NaN` nor 0). -/
def countFilesRecursively (directory : String) (dirExists : Bool) (timerWonRace : Bool)
    (stdout : String) : Except ProbeError Int :=
  if !dirExists then
    .error (.notFound directory)
  else if timerWonRace then
    .error (.timeout directory)
  else
    let fileCount : Int := -1
    let fileCount :=
      if stdout ≠ "" then
        match jsParseInt stdout with
        | some n => if n ≠ 0 then n else fileCount
        | none => fileCount
      else fileCount
    .ok fileCount

/-- State of a `ts-deferred` `Deferred` at the moment its promise is
handed back to the caller: whether `resolve` or `reject` has been called
on it. A promise settles exactly when one of the two has been called. -/
structure DeferredState where
  resolved : Bool
  rejected : Bool
deriving DecidableEq, Repr

/-- Embedding of `killPid` (utils.ts lines 415-423), parameterized by
whether the awaited `cpp.exec` of the kill command succeeds (it fails when the
process identifier no longer exists). The body creates a `Deferred`,
swallows any `exec` error in its `catch`, and returns `deferred.promise`;
`Except.ok` means no exception escapes the async body. Note that neither
`deferred.resolve` nor `deferred.reject` is ever invoked. -/
def killPid (pid : Int) (killSucceeds : Bool) : Except String DeferredState :=
  let deferred : DeferredState := { resolved := false, rejected := false }
  let caught : Except String Unit :=
    if killSucceeds then .ok () else .error ("Command failed: kill " ++ toString pid)
  match caught with
  | .ok _ => .ok deferred
  | .error _ => .ok deferred

/-- Whether the promise of a `Deferred` in the given state ever settles:
after the async body has returned, nothing else holds the `Deferred`, so
it settles exactly when `resolve` or `reject` was already called. -/
def DeferredState.settles (d : DeferredState) : Bool :=
  d.resolved || d.rejected

/-- Key/value environment override passed to `runScript`. -/
structure EnvVariable where
  key : String
  value : String

/-- Fields of `TrialConfig` consumed by `runScript`. -/
structure TrialConfig where
  codeDir : String
  command : String

/-- Model of `path.join(a, b)` on POSIX for separator-free components. -/
def pathJoinPosix (a b : String) : String := a ++ "/" ++ b

/-- Model of `path.join(a, b)` on win32 for separator-free components. -/
def pathJoinWin (a b : String) : String := a ++ "\\" ++ b

/-- Lines of the PowerShell launcher script rendered by `runScript` on
win32 (utils.ts lines 429-442), in order. The brace characters of the
PowerShell `if`/`else` blocks are written with their escape codes. -/
def runScriptLinesWin32 (localTrailConfig : TrialConfig) (workingDirectory : String)
    (envVars : List EnvVariable) : List String :=
  ("cd " ++ localTrailConfig.codeDir)
    :: envVars.map (fun v => "$env:" ++ v.key ++ "=\"" ++ v.value ++ "\"")
    ++ ["Invoke-Expression \"" ++ localTrailConfig.command ++ "\" 2>"
          ++ pathJoinWin workingDirectory "stderr",
        "$NOW_DATE = [int64](([datetime]::UtcNow)-(get-date \"1/1/1970\")).TotalSeconds",
        "$NOW_DATE = \"$NOW_DATE\" + \"000\"",
        "$state = 0",
        "if($?)\x7b$state = 0\x7d",
        "else\x7b$state = 2\x7d",
        "Write $state \" \" $NOW_DATE  | Out-File "
          ++ pathJoinWin (pathJoinWin workingDirectory ".nni") "state"
          ++ " -NoNewline -encoding utf8"]

/-- Lines of the bash launcher script rendered by `runScript` on POSIX
platforms (utils.ts lines 450-459), in order. -/
def runScriptLinesPosix (localTrailConfig : TrialConfig) (workingDirectory : String)
    (envVars : List EnvVariable) : List String :=
  "#!/bin/bash"
    :: ("cd " ++ localTrailConfig.codeDir)
    :: envVars.map (fun v => "export " ++ v.key ++ "=" ++ v.value)
    ++ ["eval " ++ localTrailConfig.command ++ " 2>" ++ pathJoinPosix workingDirectory "stderr",
        "echo $? `date +%s000` >"
          ++ pathJoinPosix (pathJoinPosix workingDirectory ".nni") "state"]

/-- Command returned by `runScript` to invoke the rendered script
(utils.ts lines 447-448 and 460-461). -/
def runScriptCmdParameter (platform : String) : List String :=
  if platform == "win32" then ["powershell", "run.ps1"] else ["bash", "run.sh"]

/-- First field of the single state-file line written when the POSIX
script of `runScript` runs: the line is
`echo $? \`date +%s000\` > <workingDir>/.nni/state` and the shell
parameter `$?` is the exit status of the just-executed user command. -/
def posixStateFirstField (exitStatus : Nat) : Nat := exitStatus

/-- First field of the state-file line written when the win32 script of
`runScript` runs: the script sets `$state = 0`, then `if($?){$state = 0}
else{$state = 2}`, where the PowerShell automatic variable `$?` is a
Boolean that is true exactly when the preceding command succeeded (exit
status 0); the actual exit status is not recorded. -/
def win32StateFirstField (exitStatus : Nat) : Nat :=
  if exitStatus = 0 then 0 else 2

/-- Model of the JS replace-all `command.split("python3").join("python")`
in `getTunerProc` (utils.ts line 374): a left-to-right scan replacing each
non-overlapping occurrence of `python3` by `python`. -/
def replacePython3 : List Char → List Char
  | 'p' :: 'y' :: 't' :: 'h' :: 'o' :: 'n' :: '3' :: rest =>
    'p' :: 'y' :: 't' :: 'h' :: 'o' :: 'n' :: replacePython3 rest
  | c :: rest => c :: replacePython3 rest
  | [] => []

/-- Arguments of the `spawn` call made by `getTunerProc`. -/
structure SpawnCall where
  executable : String
  args : List String
  shell : Bool
deriving DecidableEq, Repr

/-- Embedding of `getTunerProc` (utils.ts lines 372-392). On win32 the
command has every `python3` replaced by `python`; `cmd` is
`command.split(" ", 1)[0]` (the first space-delimited field) and the
arguments are `command.substr(cmd.length + 1).split(" ")`; JS
`split(" ")` on a character list is `List.splitOn ' '` (both return one
possibly empty field per separator gap). On every other platform the
whole command is spawned with an empty argument list and `shell: true`. -/
def getTunerProc (platform : String) (command : String) : SpawnCall :=
  if platform == "win32" then
    let replaced := replacePython3 command.data
    let cmd := (replaced.splitOn ' ').headD []
    { executable := String.mk cmd,
      args := ((replaced.drop (cmd.length + 1)).splitOn ' ').map String.mk,
      shell := false }
  else
    { executable := command, args := [], shell := true }

/-- Entry of the `os.networkInterfaces().eth0` array. -/
structure NetInterface where
  family : String
  address : String

/-- Outcome of one call to `getIPV4Address`: the returned value or thrown
error, the value of the module-level cache after the call, and whether the
call inspected `os.networkInterfaces()`. -/
structure IPv4CallResult where
  ret : Except String String
  cache : String
  inspectedInterfaces : Bool
deriving Repr

/-- Embedding of `getIPV4Address` (utils.ts lines 289-310) as a function
of the module-level cache `cachedipv4Address` (initially the empty string)
and of the `eth0` entry of `os.networkInterfaces()` (`none` models
`undefined`). The guard `cachedipv4Address && cachedipv4Address.length > 0`
is nonemptiness of the cache; the loop takes the first entry whose
`family` is `IPv4`. -/
def getIPV4Address (eth0 : Option (List NetInterface)) (cachedipv4Address : String) :
    IPv4CallResult :=
  if cachedipv4Address ≠ "" then
    { ret := .ok cachedipv4Address, cache := cachedipv4Address, inspectedInterfaces := false }
  else
    match eth0 with
    | some items =>
      match items.find? (fun item => item.family == "IPv4") with
      | some item => { ret := .ok item.address, cache := item.address, inspectedInterfaces := true }
      | none =>
        { ret := .error "getIPV4Address() failed because no valid IPv4 address found.",
          cache := cachedipv4Address, inspectedInterfaces := true }
    | none =>
      { ret := .error "getIPV4Address() failed because os.networkInterfaces().eth0 is undefined.",
        cache := cachedipv4Address, inspectedInterfaces := true }

/-! Helper lemmas about strings, shared by the claim theorems. -/

theorem strMk_data (s : String) : String.mk s.data = s := by
  cases s
  rfl

theorem str_ext {s t : String} (h : s.data = t.data) : s = t := by
  cases s
  cases t
  exact congrArg String.mk h

theorem join_data_acc (L : List String) (acc : String) :
    (List.foldl (fun a b => a ++ b) acc L).data = acc.data ++ (L.map String.data).flatten := by
  induction L generalizing acc with
  | nil => simp
  | cons h t ih => simp [ih, String.data_append]

theorem join_data (L : List String) : (String.join L).data = (L.map String.data).flatten := by
  simpa [String.join] using join_data_acc L ""

theorem strContains_join_of_mem {s : String} {L : List String} (h : s ∈ L) :
    strContains s (String.join L) := by
  unfold strContains
  rw [join_data]
  exact List.infix_of_mem_flatten (List.mem_map_of_mem String.data h)

theorem append_ne_of_ne_at {p q : String} (s t : String) (k : Nat)
    (hp : k < p.data.length) (hq : k < q.data.length)
    (hne : p.data[k]? ≠ q.data[k]?) : p ++ s ≠ q ++ t := by
  intro h
  have hd : p.data ++ s.data = q.data ++ t.data := by
    have := congrArg String.data h
    rwa [String.data_append, String.data_append] at this
  have h1 : (p.data ++ s.data)[k]? = p.data[k]? := List.getElem?_append_left hp
  have h2 : (q.data ++ t.data)[k]? = q.data[k]? := List.getElem?_append_left hq
  exact hne (h1 ▸ h2 ▸ congrArg (fun l => l[k]?) hd)

theorem append_ne_lit_of_ne_at {p : String} (s q : String) (k : Nat)
    (hp : k < p.data.length) (hne : p.data[k]? ≠ q.data[k]?) : p ++ s ≠ q := by
  intro h
  have hd : p.data ++ s.data = q.data := by
    have := congrArg String.data h
    rwa [String.data_append] at this
  have h1 : (p.data ++ s.data)[k]? = p.data[k]? := List.getElem?_append_left hp
  exact hne (h1 ▸ congrArg (fun l => l[k]?) hd)

theorem append_left_cancel_str {p s t : String} (h : p ++ s = p ++ t) : s = t := by
  have hd := congrArg String.data h
  rw [String.data_append, String.data_append] at hd
  exact str_ext (List.append_cancel_left hd)

/-- C1 counterexample: for a user command exiting with status 3 the POSIX
script records first field 3 but the win32 script records 2, so the
state-file contract is not identical across the two platforms. -/
theorem runScript_state_field_counterexample :
    posixStateFirstField 3 = 3 ∧ win32StateFirstField 3 = 2 ∧
      win32StateFirstField 3 ≠ posixStateFirstField 3 := by
  refine ⟨rfl, rfl, ?_⟩
  decide

/-- C1 (amended): the POSIX launcher script rendered by `runScript` always
records the user command's actual exit status as the first state-file
field (its state line is `echo $? ... > <wd>/.nni/state`), while the win32
script records 0 on success and 2 on any failure (its rendered lines set
`$state` from the Boolean `$?`); the two agree exactly when the exit
status is 0 or 2. -/
theorem runScript_state_field_spec (cfg : TrialConfig) (wd : String)
    (envVars : List EnvVariable) (exitStatus : Nat) :
    posixStateFirstField exitStatus = exitStatus
    ∧ win32StateFirstField exitStatus = (if exitStatus = 0 then 0 else 2)
    ∧ ("echo $? `date +%s000` >" ++ pathJoinPosix (pathJoinPosix wd ".nni") "state")
        ∈ runScriptLinesPosix cfg wd envVars
    ∧ "if($?)\x7b$state = 0\x7d" ∈ runScriptLinesWin32 cfg wd envVars
    ∧ "else\x7b$state = 2\x7d" ∈ runScriptLinesWin32 cfg wd envVars
    ∧ (win32StateFirstField exitStatus = posixStateFirstField exitStatus
        ↔ exitStatus = 0 ∨ exitStatus = 2) := by
  refine ⟨rfl, rfl, ?_, ?_, ?_, ?_⟩
  · simp [runScriptLinesPosix]
  · simp [runScriptLinesWin32]
  · simp [runScriptLinesWin32]
  · unfold win32StateFirstField posixStateFirstField
    split <;> omega

/-- C2: the body of `killPid` swallows any failure of the `kill` command
(no exception escapes: the result is `Except.ok`), but the `Deferred`
whose promise it returns is never resolved nor rejected, so the returned
promise never settles — contradicting the claim that it completes once
the termination signal has been issued. -/
theorem killPid_promise_never_settles (pid : Int) (killSucceeds : Bool) :
    killPid pid killSucceeds = .ok { resolved := false, rejected := false }
    ∧ DeferredState.settles { resolved := false, rejected := false } = false := by
  constructor
  · unfold killPid
    cases killSucceeds <;> rfl
  · rfl

/-- C5: evaluating `countFilesRecursively` at an existing directory whose
enumeration reports 4 files yields 4, but at a directory with zero regular
files (stdout `0`, which `parseInt` maps to the falsy 0) the initial
sentinel `-1` is returned instead of 0. -/
theorem countFilesRecursively_zero_files_eval :
    countFilesRecursively "/tmp/run" true false "4\n" = .ok 4
    ∧ countFilesRecursively "/tmp/run" true false "0\n" = .ok (-1)
    ∧ (-1 : Int) ≠ 0 := by
  refine ⟨rfl, rfl, by decide⟩

/-- C9: `countFilesRecursively` fails with `NotFound` exactly when the
directory does not exist at the time of the call; when it exists the
result is never a `NotFound` error (it is a count or a `Timeout`), and
when it does not exist the error carries the directory path. -/
theorem countFilesRecursively_notFound_iff (directory : String) (dirExists timerWonRace : Bool)
    (stdout : String) :
    ((∃ d, countFilesRecursively directory dirExists timerWonRace stdout
        = .error (.notFound d)) ↔ dirExists = false)
    ∧ countFilesRecursively directory false timerWonRace stdout
        = .error (.notFound directory) := by
  constructor
  · constructor
    · rintro ⟨d, hd⟩
      cases dirExists
      · rfl
      · cases timerWonRace <;> simp [countFilesRecursively] at hd
    · rintro rfl
      exact ⟨directory, rfl⟩
  · rfl

/-- C10: after a successful first call on an empty cache returns address
`a`, the cache holds `a`, the address is nonempty (assuming the OS reports
nonempty interface addresses), and every subsequent call returns `a`
straight from the cache without re-inspecting the network interfaces,
whatever the interfaces look like by then. -/
theorem getIPV4Address_memoizes (eth0 : Option (List NetInterface)) (a : String)
    (hwf : ∀ items, eth0 = some items → ∀ i ∈ items, i.address ≠ "")
    (hfirst : (getIPV4Address eth0 "").ret = .ok a) :
    a ≠ ""
    ∧ (getIPV4Address eth0 "").cache = a
    ∧ ∀ eth0later, getIPV4Address eth0later a
        = { ret := .ok a, cache := a, inspectedInterfaces := false } := by
  unfold getIPV4Address at hfirst ⊢
  simp only [ne_eq, not_true_eq_false, if_false, reduceIte] at hfirst ⊢
  match heth : eth0 with
  | none => simp [heth] at hfirst
  | some items =>
    simp only [heth] at hfirst
    match hfind : items.find? (fun item => item.family == "IPv4") with
    | none => simp [hfind] at hfirst
    | some item =>
      simp only [hfind, Except.ok.injEq] at hfirst
      have hmem := List.mem_of_find?_eq_some hfind
      have hne : a ≠ "" := hfirst ▸ hwf items rfl item hmem
      refine ⟨hne, by simp [hfind, hfirst], fun eth0later => ?_⟩
      simp [hne]

/-- C10 witness: a concrete environment with one IPv4 interface; the first
call on an empty cache returns its address, caches it, and a later call
(even with the interfaces gone) returns the cached address without
inspection. -/
theorem getIPV4Address_memoizes_witness :
    (getIPV4Address (some [{ family := "IPv4", address := "10.0.0.1" }]) "").ret = .ok "10.0.0.1"
    ∧ "10.0.0.1" ≠ ""
    ∧ (getIPV4Address (some [{ family := "IPv4", address := "10.0.0.1" }]) "").cache = "10.0.0.1"
    ∧ getIPV4Address none "10.0.0.1"
        = { ret := .ok "10.0.0.1", cache := "10.0.0.1", inspectedInterfaces := false } := by
  have hwf : ∀ items, (some [{ family := "IPv4", address := "10.0.0.1" : NetInterface }]) = some items →
      ∀ i ∈ items, i.address ≠ "" := by
    intro items h i hi
    injection h with h
    subst h
    simp only [List.mem_singleton] at hi
    subst hi
    decide
  have h := getIPV4Address_memoizes (some [{ family := "IPv4", address := "10.0.0.1" }]) "10.0.0.1" hwf rfl
  exact ⟨rfl, h.1, h.2.1, h.2.2 none⟩

/-- C3: `getMsgDispatcherCommand` returns a command string exactly when it
is not the case that an advisor is given together with a tuner or an
assessor, nor that both tuner and advisor are missing; in the two
offending cases (and only those) it throws. -/
theorem getMsgDispatcherCommand_ok_iff (platform : String)
    (tuner assessor advisor : Option DispatcherSpec) (multiPhase multiThread : Bool) :
    (getMsgDispatcherCommand platform tuner assessor advisor multiPhase multiThread).isOk
      = (!((tuner.isSome || assessor.isSome) && advisor.isSome)
          && (tuner.isSome || advisor.isSome)) := by
  cases tuner <;> cases assessor <;> cases advisor <;>
    simp [getMsgDispatcherCommand, dispatcherSegments, Except.isOk, Except.toBool, Except.map]

/-- Bound check for the three branches of `charMap`: an index below 52
maps into the letter ranges. -/
theorem charMap_letter (m : Nat) (h : m < 52) :
    (65 ≤ charMap m ∧ charMap m ≤ 90) ∨ (97 ≤ charMap m ∧ charMap m ≤ 122) := by
  unfold charMap
  split_ifs <;> omega

/-- Bound check for `charMap` on indices below 62: letters or digits. -/
theorem charMap_alnum (m : Nat) (h : m < 62) :
    (65 ≤ charMap m ∧ charMap m ≤ 90) ∨ (97 ≤ charMap m ∧ charMap m ≤ 122)
      ∨ (48 ≤ charMap m ∧ charMap m ≤ 57) := by
  unfold charMap
  split_ifs <;> omega

theorem charMap_lt (m : Nat) (h : m < 62) : charMap m < 123 := by
  unfold charMap
  split_ifs <;> omega

theorem toNat_Char_ofNat (n : Nat) (h : n < 55296) : (Char.ofNat n).toNat = n := by
  unfold Char.ofNat
  rw [dif_pos (by simp [Nat.isValidChar]; omega)]
  rfl

theorem uniqueStringRest_length (num k : Nat) : (uniqueStringRest num k).length = k := by
  induction k generalizing num with
  | zero => rfl
  | succ k ih => simp [uniqueStringRest, ih]

theorem uniqueStringRest_mem (num k : Nat) (x : Nat) (hx : x ∈ uniqueStringRest num k) :
    ∃ m, m < 62 ∧ x = charMap m := by
  induction k generalizing num with
  | zero => simp [uniqueStringRest] at hx
  | succ k ih =>
    simp only [uniqueStringRest, List.mem_cons] at hx
    rcases hx with rfl | hx
    · exact ⟨num % 62, Nat.mod_lt _ (by omega), rfl⟩
    · exact ih (num / 62) hx

/-- C4: for every random byte list and every requested length at least 1,
`uniqueString` returns a string of exactly that length whose first
character is an ASCII letter and whose remaining characters are ASCII
letters or digits; requested length 0 returns the empty string. -/
theorem uniqueString_spec (bytes : List Nat) (len : Nat) (hlen : 1 ≤ len) :
    (uniqueString bytes len).length = len
    ∧ (∀ c ∈ (uniqueString bytes len).data.take 1,
        (65 ≤ c.toNat ∧ c.toNat ≤ 90) ∨ (97 ≤ c.toNat ∧ c.toNat ≤ 122))
    ∧ (∀ c ∈ (uniqueString bytes len).data.drop 1,
        (65 ≤ c.toNat ∧ c.toNat ≤ 90) ∨ (97 ≤ c.toNat ∧ c.toNat ≤ 122)
          ∨ (48 ≤ c.toNat ∧ c.toNat ≤ 57))
    ∧ uniqueString bytes 0 = "" := by
  have hlen0 : len ≠ 0 := by omega
  have hdata : (uniqueString bytes len).data
      = (charMap ((bytes.foldl (fun a b => a * 256 + b) 0) % 52)
          :: uniqueStringRest ((bytes.foldl (fun a b => a * 256 + b) 0) / 52) (len - 1)).map
          Char.ofNat := by
    unfold uniqueString
    simp [hlen0]
  refine ⟨?_, ?_, ?_, rfl⟩
  · show (uniqueString bytes len).data.length = len
    rw [hdata]
    simp [uniqueStringRest_length]
    omega
  · intro c hc
    rw [hdata] at hc
    simp only [List.map_cons, List.take_succ_cons, List.take_zero, List.mem_singleton] at hc
    subst hc
    have hm : (bytes.foldl (fun a b => a * 256 + b) 0) % 52 < 52 := Nat.mod_lt _ (by omega)
    have hlet := charMap_letter _ hm
    rw [toNat_Char_ofNat _ (by have := charMap_lt _ (by omega : (bytes.foldl (fun a b => a * 256 + b) 0) % 52 < 62); omega)]
    exact hlet
  · intro c hc
    rw [hdata] at hc
    simp only [List.map_cons, List.drop_succ_cons, List.drop_zero, List.mem_map] at hc
    obtain ⟨x, hx, rfl⟩ := hc
    obtain ⟨m, hm, rfl⟩ := uniqueStringRest_mem _ _ x hx
    rw [toNat_Char_ofNat _ (by have := charMap_lt m hm; omega)]
    exact charMap_alnum m hm

/-- C4 witness: a concrete byte list and length 3. -/
theorem uniqueString_spec_witness :
    1 ≤ 3
    ∧ ((uniqueString [7, 200] 3).length = 3
        ∧ (∀ c ∈ (uniqueString [7, 200] 3).data.take 1,
            (65 ≤ c.toNat ∧ c.toNat ≤ 90) ∨ (97 ≤ c.toNat ∧ c.toNat ≤ 122))
        ∧ (∀ c ∈ (uniqueString [7, 200] 3).data.drop 1,
            (65 ≤ c.toNat ∧ c.toNat ≤ 90) ∨ (97 ≤ c.toNat ∧ c.toNat ≤ 122)
              ∨ (48 ≤ c.toNat ∧ c.toNat ≤ 57))
        ∧ uniqueString [7, 200] 0 = "") :=
  ⟨by decide, uniqueString_spec [7, 200] 3 (by decide)⟩

theorem mem_optField {pre : String} {v : Option String} {s : String} :
    s ∈ optField pre v ↔ ∃ x, v = some x ∧ 1 < x.length ∧ s = pre ++ x := by
  cases v with
  | none => simp [optField]
  | some x =>
    simp only [optField]
    split
    · rename_i h
      simp [eq_comm, h]
    · rename_i h
      simp [eq_comm, h]

theorem mem_argField {platform pre : String} {v : Option Json} {s : String} :
    s ∈ argField platform pre v ↔ ∃ a, v = some a ∧ s = pre ++ crossPlatformStringify platform a := by
  cases v with
  | none => simp [argField]
  | some a => simp [argField, eq_comm]

theorem ok_dispatcherSegments_tuner {platform : String} {tu : DispatcherSpec}
    {assessor : Option DispatcherSpec} {mp mt : Bool} {cmd : String}
    (h : getMsgDispatcherCommand platform (some tu) assessor none mp mt = .ok cmd) :
    cmd = String.join ((["python3 -m nni"]
        ++ (if mp then [" --multi_phase"] else [])
        ++ (if mt then [" --multi_thread"] else []))
      ++ tunerSegments platform tu ++ assessorSegments platform assessor) := by
  simp only [getMsgDispatcherCommand, dispatcherSegments, Option.isSome_none, Option.isSome_some,
    Bool.and_false, Bool.false_and, Bool.and_true, Bool.not_true, Bool.false_or, Bool.or_false,
    Bool.true_or, Bool.or_true, Bool.not_false, Bool.true_and, if_false, Except.map,
    Bool.false_eq_true, reduceIte] at h
  exact (Except.ok.inj h).symm

theorem ok_dispatcherSegments_advisor {platform : String} {adv : DispatcherSpec}
    {mp mt : Bool} {cmd : String}
    (h : getMsgDispatcherCommand platform none none (some adv) mp mt = .ok cmd) :
    cmd = String.join ((["python3 -m nni"]
        ++ (if mp then [" --multi_phase"] else [])
        ++ (if mt then [" --multi_thread"] else []))
      ++ advisorSegments platform adv) := by
  simp only [getMsgDispatcherCommand, dispatcherSegments, Option.isSome_none, Option.isSome_some,
    Bool.and_false, Bool.false_and, Bool.and_true, Bool.not_true, Bool.false_or, Bool.or_false,
    Bool.true_or, Bool.or_true, Bool.not_false, Bool.true_and, if_false, Except.map,
    Bool.false_eq_true, reduceIte] at h
  exact (Except.ok.inj h).symm

/-- C6: `crossPlatformStringify` applies exactly one `JSON.stringify` on
win32 and `JSON.stringify` twice (the inner result re-encoded as a JSON
string) on every other platform; and every `tuner_args` / `assessor_args`
/ `advisor_args` token emitted by `getMsgDispatcherCommand` is the flag
followed by exactly this encoding of the payload. -/
theorem crossPlatformStringify_encoding (platform : String) (a : Json)
    (tu adv asr : DispatcherSpec) (cn : String) (assessor : Option DispatcherSpec)
    (mp mt : Bool) (cmd cmdA cmdS : String) :
    crossPlatformStringify "win32" a = Json.stringify a
    ∧ (platform ≠ "win32" →
        crossPlatformStringify platform a = Json.stringify (Json.str (Json.stringify a)))
    ∧ (getMsgDispatcherCommand platform (some tu) assessor none mp mt = .ok cmd →
        tu.classArgs = some a →
        strContains (" --tuner_args " ++ crossPlatformStringify platform a) cmd)
    ∧ (getMsgDispatcherCommand platform none none (some adv) mp mt = .ok cmdA →
        adv.classArgs = some a →
        strContains (" --advisor_args " ++ crossPlatformStringify platform a) cmdA)
    ∧ (getMsgDispatcherCommand platform (some tu) (some asr) none mp mt = .ok cmdS →
        asr.classArgs = some a → asr.className = some cn →
        strContains (" --assessor_args " ++ crossPlatformStringify platform a) cmdS) := by
  refine ⟨rfl, ?_, ?_, ?_, ?_⟩
  · intro hp
    unfold crossPlatformStringify
    rw [if_neg (by simpa using hp)]
  · intro hok hargs
    rw [ok_dispatcherSegments_tuner hok]
    apply strContains_join_of_mem
    refine List.mem_append_left _ (List.mem_append_right _ ?_)
    simp [tunerSegments, mem_argField, hargs]
  · intro hok hargs
    rw [ok_dispatcherSegments_advisor hok]
    apply strContains_join_of_mem
    refine List.mem_append_right _ ?_
    simp [advisorSegments, mem_argField, hargs]
  · intro hok hargs hcn
    rw [ok_dispatcherSegments_tuner hok]
    apply strContains_join_of_mem
    refine List.mem_append_right _ ?_
    simp [assessorSegments, hcn, mem_argField, hargs]

/-- C6 witness: a concrete tuner with numeric payload 3 on a POSIX
platform; the emitted token carries the doubly encoded payload. -/
theorem crossPlatformStringify_encoding_witness :
    getMsgDispatcherCommand "linux"
        (some { className := some "T", classArgs := some (Json.num 3),
                codeDir := none, classFileName := none }) none none false false
      = .ok "python3 -m nni --tuner_class_name T --tuner_args \"3\""
    ∧ ("linux" : String) ≠ "win32"
    ∧ crossPlatformStringify "linux" (Json.num 3)
        = Json.stringify (Json.str (Json.stringify (Json.num 3)))
    ∧ strContains (" --tuner_args " ++ crossPlatformStringify "linux" (Json.num 3))
        "python3 -m nni --tuner_class_name T --tuner_args \"3\"" := by
  refine ⟨by rfl, by decide, ?_, ?_⟩
  · exact (crossPlatformStringify_encoding "linux" (Json.num 3)
      { className := some "T", classArgs := some (Json.num 3), codeDir := none, classFileName := none }
      { className := none, classArgs := none, codeDir := none, classFileName := none }
      { className := none, classArgs := none, codeDir := none, classFileName := none }
      "" none false false "" "" "").2.1 (by decide)
  · exact (crossPlatformStringify_encoding "linux" (Json.num 3)
      { className := some "T", classArgs := some (Json.num 3), codeDir := none, classFileName := none }
      { className := none, classArgs := none, codeDir := none, classFileName := none }
      { className := none, classArgs := none, codeDir := none, classFileName := none }
      "" none false false
      "python3 -m nni --tuner_class_name T --tuner_args \"3\"" "" "").2.2.1 (by rfl) rfl

theorem splitOn_first_field {l₁ l₂ : List Char} (h : ' ' ∉ l₁) :
    (l₁ ++ ' ' :: l₂).splitOn ' ' = l₁ :: l₂.splitOn ' ' := by
  unfold List.splitOn
  refine List.splitOnP_first _ l₁ ?_ ' ' (by simp) l₂
  intro x hx
  simp only [beq_iff_eq]
  exact fun hc => h (hc ▸ hx)

/-- C7 counterexample: on win32 the single-token command `python3` is
spawned with executable `python` but argument list `[""]` (one empty
string), not the empty list that "the remaining tokens" (there are none)
would give. -/
theorem getTunerProc_counterexample :
    getTunerProc "win32" "python3"
      = { executable := "python", args := [""], shell := false }
    ∧ ([""] : List String) ≠ [] := by
  refine ⟨by decide, by decide⟩

/-- C7 (amended): on win32, after every occurrence of `python3` in the
command is replaced by `python`, if the result is a space-free executable
token followed by a space and the remaining single-space-separated
space-free tokens, `getTunerProc` spawns that token as the executable with
exactly the remaining tokens as arguments and no shell; a resulting
command with no space instead yields the single argument `""` (see the
counterexample). On every non-win32 platform the whole command string is
spawned with an empty argument list and shell interpretation enabled. -/
theorem getTunerProc_spec (platform command exe : String) (toks : List String)
    (hrep : replacePython3 command.data
      = exe.data ++ ' ' :: List.intercalate [' '] (toks.map String.data))
    (hexe : ' ' ∉ exe.data)
    (htoks : toks ≠ [])
    (hfree : ∀ t ∈ toks, ' ' ∉ t.data) :
    getTunerProc "win32" command = { executable := exe, args := toks, shell := false }
    ∧ (platform ≠ "win32" →
        getTunerProc platform command = { executable := command, args := [], shell := true }) := by
  constructor
  · simp only [getTunerProc, hrep]
    rw [if_pos (by decide)]
    rw [splitOn_first_field hexe]
    simp only [List.headD_cons]
    have hdrop : (exe.data ++ ' ' :: List.intercalate [' '] (toks.map String.data)).drop
        (exe.data.length + 1) = List.intercalate [' '] (toks.map String.data) := by
      rw [show exe.data ++ ' ' :: List.intercalate [' '] (toks.map String.data)
          = (exe.data ++ [' ']) ++ List.intercalate [' '] (toks.map String.data) by simp]
      rw [show exe.data.length + 1 = (exe.data ++ [' ']).length by simp]
      exact List.drop_left _ _
    rw [hdrop]
    rw [List.splitOn_intercalate (toks.map String.data) ' '
      (by
        intro l hl
        obtain ⟨t, ht, rfl⟩ := List.mem_map.mp hl
        exact hfree t ht)
      (by simpa using htoks)]
    simp only [List.map_map]
    have : ∀ t : String, (String.mk ∘ String.data) t = t := fun t => strMk_data t
    rw [List.map_congr_left (fun t _ => this t)]
    simp [strMk_data]
  · intro hp
    simp only [getTunerProc]
    rw [if_neg (by simpa using hp)]

/-- C7 witness: the command `python3 -m nni.run` on win32 spawns
`python` with arguments `-m nni.run`; on `linux` it is spawned whole with
a shell. -/
theorem getTunerProc_spec_witness :
    replacePython3 "python3 -m nni.run".data
      = "python".data ++ ' ' :: List.intercalate [' '] (["-m", "nni.run"].map String.data)
    ∧ getTunerProc "win32" "python3 -m nni.run"
        = { executable := "python", args := ["-m", "nni.run"], shell := false }
    ∧ getTunerProc "linux" "python3 -m nni.run"
        = { executable := "python3 -m nni.run", args := [], shell := true } :=
  ⟨by decide,
    (getTunerProc_spec "linux" "python3 -m nni.run" "python" ["-m", "nni.run"]
      (by decide) (by decide) (by decide) (by decide)).1,
    (getTunerProc_spec "linux" "python3 -m nni.run" "python" ["-m", "nni.run"]
      (by decide) (by decide) (by decide) (by decide)).2 (by decide)⟩

theorem mem_ite_singleton {x s : String} {b : Bool} :
    x ∈ (if b then [s] else []) ↔ b = true ∧ x = s := by
  cases b <;> simp

theorem mem_assessorSegments {platform : String} {assessor : Option DispatcherSpec} {s : String} :
    s ∈ assessorSegments platform assessor ↔
      ∃ a cn, assessor = some a ∧ a.className = some cn ∧
        (s = " --assessor_class_name " ++ cn
          ∨ (∃ b, a.classArgs = some b
              ∧ s = " --assessor_args " ++ crossPlatformStringify platform b)
          ∨ (∃ x, a.codeDir = some x ∧ 1 < x.length ∧ s = " --assessor_directory " ++ x)
          ∨ (∃ x, a.classFileName = some x ∧ 1 < x.length
              ∧ s = " --assessor_class_filename " ++ x)) := by
  cases assessor with
  | none => simp [assessorSegments]
  | some a =>
    cases hcn : a.className with
    | none => simp [assessorSegments, hcn]
    | some cn =>
      simp [assessorSegments, hcn, mem_optField, mem_argField]

theorem dispatcherSegments_tuner_eq {platform : String} {tu : DispatcherSpec}
    {assessor : Option DispatcherSpec} {mp mt : Bool} {segs : List String}
    (h : dispatcherSegments platform (some tu) assessor none mp mt = .ok segs) :
    segs = (["python3 -m nni"] ++ (if mp then [" --multi_phase"] else [])
      ++ (if mt then [" --multi_thread"] else []))
      ++ tunerSegments platform tu ++ assessorSegments platform assessor := by
  simp only [dispatcherSegments, Option.isSome_none, Option.isSome_some,
    Bool.and_false, Bool.false_and, Bool.and_true, Bool.not_true, Bool.false_or, Bool.or_false,
    Bool.true_or, Bool.or_true, Bool.not_false, Bool.true_and, if_false,
    Bool.false_eq_true, reduceIte] at h
  exact (Except.ok.inj h).symm

theorem dispatcherSegments_advisor_eq {platform : String} {adv : DispatcherSpec}
    {mp mt : Bool} {segs : List String}
    (h : dispatcherSegments platform none none (some adv) mp mt = .ok segs) :
    segs = (["python3 -m nni"] ++ (if mp then [" --multi_phase"] else [])
      ++ (if mt then [" --multi_thread"] else []))
      ++ advisorSegments platform adv := by
  simp only [dispatcherSegments, Option.isSome_none, Option.isSome_some,
    Bool.and_false, Bool.false_and, Bool.and_true, Bool.not_true, Bool.false_or, Bool.or_false,
    Bool.true_or, Bool.or_true, Bool.not_false, Bool.true_and, if_false,
    Bool.false_eq_true, reduceIte] at h
  exact (Except.ok.inj h).symm

theorem mem_tunerSegments {platform : String} {tu : DispatcherSpec} {s : String} :
    s ∈ tunerSegments platform tu ↔
      s = " --tuner_class_name " ++ jsTemplate tu.className
      ∨ (∃ b, tu.classArgs = some b ∧ s = " --tuner_args " ++ crossPlatformStringify platform b)
      ∨ (∃ x, tu.codeDir = some x ∧ 1 < x.length ∧ s = " --tuner_directory " ++ x)
      ∨ (∃ x, tu.classFileName = some x ∧ 1 < x.length
          ∧ s = " --tuner_class_filename " ++ x) := by
  simp [tunerSegments, mem_optField, mem_argField, or_assoc]

theorem mem_advisorSegments {platform : String} {adv : DispatcherSpec} {s : String} :
    s ∈ advisorSegments platform adv ↔
      s = " --advisor_class_name " ++ jsTemplate adv.className
      ∨ (∃ b, adv.classArgs = some b ∧ s = " --advisor_args " ++ crossPlatformStringify platform b)
      ∨ (∃ x, adv.codeDir = some x ∧ 1 < x.length ∧ s = " --advisor_directory " ++ x)
      ∨ (∃ x, adv.classFileName = some x ∧ 1 < x.length
          ∧ s = " --advisor_class_filename " ++ x) := by
  simp [advisorSegments, mem_optField, mem_argField, or_assoc]

theorem not_mem_base {tok : String} (mp mt : Bool)
    (h0 : tok ≠ "python3 -m nni") (h1 : tok ≠ " --multi_phase")
    (h2 : tok ≠ " --multi_thread") :
    tok ∉ (["python3 -m nni"] ++ (if mp then [" --multi_phase"] else [])
      ++ (if mt then [" --multi_thread"] else [])) := by
  intro h
  rcases List.mem_append.mp h with h | h
  · rcases List.mem_append.mp h with h | h
    · exact h0 (List.mem_singleton.mp h)
    · exact h1 (mem_ite_singleton.mp h).2
  · exact h2 (mem_ite_singleton.mp h).2

/-- C8 (amended): in the command line emitted by `getMsgDispatcherCommand`,
the optional code-directory and class-file-name segments of the tuner and
of the advisor are present exactly when the field is defined with string
length greater than one (defined fields of length 0 or 1 are omitted);
for the assessor the same holds only when additionally the assessor's
`className` is defined — when it is undefined the whole assessor group,
its defined fields included, is omitted. -/
theorem dispatcher_optional_fields (platform : String) (mp mt : Bool)
    (tu adv : DispatcherSpec) (assessor : Option DispatcherSpec)
    (segsT segsA : List String) (d : String)
    (hT : dispatcherSegments platform (some tu) assessor none mp mt = .ok segsT)
    (hA : dispatcherSegments platform none none (some adv) mp mt = .ok segsA) :
    ((" --tuner_directory " ++ d) ∈ segsT ↔ tu.codeDir = some d ∧ 1 < d.length)
    ∧ ((" --tuner_class_filename " ++ d) ∈ segsT ↔ tu.classFileName = some d ∧ 1 < d.length)
    ∧ ((" --assessor_directory " ++ d) ∈ segsT ↔
        ∃ a cn, assessor = some a ∧ a.className = some cn
          ∧ a.codeDir = some d ∧ 1 < d.length)
    ∧ ((" --assessor_class_filename " ++ d) ∈ segsT ↔
        ∃ a cn, assessor = some a ∧ a.className = some cn
          ∧ a.classFileName = some d ∧ 1 < d.length)
    ∧ ((" --advisor_directory " ++ d) ∈ segsA ↔ adv.codeDir = some d ∧ 1 < d.length)
    ∧ ((" --advisor_class_filename " ++ d) ∈ segsA ↔
        adv.classFileName = some d ∧ 1 < d.length) := by
  have hTs := dispatcherSegments_tuner_eq hT
  have hAs := dispatcherSegments_advisor_eq hA
  subst hTs
  subst hAs
  refine ⟨?_, ?_, ?_, ?_, ?_, ?_⟩
  · -- tuner_directory
    constructor
    · intro hmem
      rcases List.mem_append.mp hmem with hmem | hmem
      · rcases List.mem_append.mp hmem with hmem | hmem
        · exact absurd hmem (not_mem_base mp mt
            (append_ne_lit_of_ne_at d _ 0 (by decide) (by decide))
            (append_ne_lit_of_ne_at d _ 3 (by decide) (by decide))
            (append_ne_lit_of_ne_at d _ 3 (by decide) (by decide)))
        · rcases mem_tunerSegments.mp hmem with h | ⟨b, hb, h⟩ | ⟨x, hx, hlen, h⟩ | ⟨x, hx, hlen, h⟩
          · exact absurd h (append_ne_of_ne_at d _ 9 (by decide) (by decide) (by decide))
          · exact absurd h (append_ne_of_ne_at d _ 9 (by decide) (by decide) (by decide))
          · obtain rfl := append_left_cancel_str h
            exact ⟨hx, hlen⟩
          · exact absurd h (append_ne_of_ne_at d _ 9 (by decide) (by decide) (by decide))
      · rcases mem_assessorSegments.mp hmem with
          ⟨a, cn, ha, hcn, h | ⟨b, hb, h⟩ | ⟨x, hx, hlen, h⟩ | ⟨x, hx, hlen, h⟩⟩
        · exact absurd h (append_ne_of_ne_at d _ 3 (by decide) (by decide) (by decide))
        · exact absurd h (append_ne_of_ne_at d _ 3 (by decide) (by decide) (by decide))
        · exact absurd h (append_ne_of_ne_at d _ 3 (by decide) (by decide) (by decide))
        · exact absurd h (append_ne_of_ne_at d _ 3 (by decide) (by decide) (by decide))
    · rintro ⟨hcd, hlen⟩
      exact List.mem_append_left _ (List.mem_append_right _
        (mem_tunerSegments.mpr (Or.inr (Or.inr (Or.inl ⟨d, hcd, hlen, rfl⟩)))))
  · -- tuner_class_filename
    constructor
    · intro hmem
      rcases List.mem_append.mp hmem with hmem | hmem
      · rcases List.mem_append.mp hmem with hmem | hmem
        · exact absurd hmem (not_mem_base mp mt
            (append_ne_lit_of_ne_at d _ 0 (by decide) (by decide))
            (append_ne_lit_of_ne_at d _ 3 (by decide) (by decide))
            (append_ne_lit_of_ne_at d _ 3 (by decide) (by decide)))
        · rcases mem_tunerSegments.mp hmem with h | ⟨b, hb, h⟩ | ⟨x, hx, hlen, h⟩ | ⟨x, hx, hlen, h⟩
          · exact absurd h (append_ne_of_ne_at d _ 15 (by decide) (by decide) (by decide))
          · exact absurd h (append_ne_of_ne_at d _ 9 (by decide) (by decide) (by decide))
          · exact absurd h (append_ne_of_ne_at d _ 9 (by decide) (by decide) (by decide))
          · obtain rfl := append_left_cancel_str h
            exact ⟨hx, hlen⟩
      · rcases mem_assessorSegments.mp hmem with
          ⟨a, cn, ha, hcn, h | ⟨b, hb, h⟩ | ⟨x, hx, hlen, h⟩ | ⟨x, hx, hlen, h⟩⟩
        · exact absurd h (append_ne_of_ne_at d _ 3 (by decide) (by decide) (by decide))
        · exact absurd h (append_ne_of_ne_at d _ 3 (by decide) (by decide) (by decide))
        · exact absurd h (append_ne_of_ne_at d _ 3 (by decide) (by decide) (by decide))
        · exact absurd h (append_ne_of_ne_at d _ 3 (by decide) (by decide) (by decide))
    · rintro ⟨hcf, hlen⟩
      exact List.mem_append_left _ (List.mem_append_right _
        (mem_tunerSegments.mpr (Or.inr (Or.inr (Or.inr ⟨d, hcf, hlen, rfl⟩)))))
  · -- assessor_directory
    constructor
    · intro hmem
      rcases List.mem_append.mp hmem with hmem | hmem
      · rcases List.mem_append.mp hmem with hmem | hmem
        · exact absurd hmem (not_mem_base mp mt
            (append_ne_lit_of_ne_at d _ 0 (by decide) (by decide))
            (append_ne_lit_of_ne_at d _ 3 (by decide) (by decide))
            (append_ne_lit_of_ne_at d _ 3 (by decide) (by decide)))
        · rcases mem_tunerSegments.mp hmem with h | ⟨b, hb, h⟩ | ⟨x, hx, hlen, h⟩ | ⟨x, hx, hlen, h⟩
          · exact absurd h (append_ne_of_ne_at d _ 3 (by decide) (by decide) (by decide))
          · exact absurd h (append_ne_of_ne_at d _ 3 (by decide) (by decide) (by decide))
          · exact absurd h (append_ne_of_ne_at d _ 3 (by decide) (by decide) (by decide))
          · exact absurd h (append_ne_of_ne_at d _ 3 (by decide) (by decide) (by decide))
      · rcases mem_assessorSegments.mp hmem with
          ⟨a, cn, ha, hcn, h | ⟨b, hb, h⟩ | ⟨x, hx, hlen, h⟩ | ⟨x, hx, hlen, h⟩⟩
        · exact absurd h (append_ne_of_ne_at d _ 12 (by decide) (by decide) (by decide))
        · exact absurd h (append_ne_of_ne_at d _ 12 (by decide) (by decide) (by decide))
        · obtain rfl := append_left_cancel_str h
          exact ⟨a, cn, ha, hcn, hx, hlen⟩
        · exact absurd h (append_ne_of_ne_at d _ 12 (by decide) (by decide) (by decide))
    · rintro ⟨a, cn, ha, hcn, hcd, hlen⟩
      exact List.mem_append_right _ (mem_assessorSegments.mpr
        ⟨a, cn, ha, hcn, Or.inr (Or.inr (Or.inl ⟨d, hcd, hlen, rfl⟩))⟩)
  · -- assessor_class_filename
    constructor
    · intro hmem
      rcases List.mem_append.mp hmem with hmem | hmem
      · rcases List.mem_append.mp hmem with hmem | hmem
        · exact absurd hmem (not_mem_base mp mt
            (append_ne_lit_of_ne_at d _ 0 (by decide) (by decide))
            (append_ne_lit_of_ne_at d _ 3 (by decide) (by decide))
            (append_ne_lit_of_ne_at d _ 3 (by decide) (by decide)))
        · rcases mem_tunerSegments.mp hmem with h | ⟨b, hb, h⟩ | ⟨x, hx, hlen, h⟩ | ⟨x, hx, hlen, h⟩
          · exact absurd h (append_ne_of_ne_at d _ 3 (by decide) (by decide) (by decide))
          · exact absurd h (append_ne_of_ne_at d _ 3 (by decide) (by decide) (by decide))
          · exact absurd h (append_ne_of_ne_at d _ 3 (by decide) (by decide) (by decide))
          · exact absurd h (append_ne_of_ne_at d _ 3 (by decide) (by decide) (by decide))
      · rcases mem_assessorSegments.mp hmem with
          ⟨a, cn, ha, hcn, h | ⟨b, hb, h⟩ | ⟨x, hx, hlen, h⟩ | ⟨x, hx, hlen, h⟩⟩
        · exact absurd h (append_ne_of_ne_at d _ 18 (by decide) (by decide) (by decide))
        · exact absurd h (append_ne_of_ne_at d _ 12 (by decide) (by decide) (by decide))
        · exact absurd h (append_ne_of_ne_at d _ 12 (by decide) (by decide) (by decide))
        · obtain rfl := append_left_cancel_str h
          exact ⟨a, cn, ha, hcn, hx, hlen⟩
    · rintro ⟨a, cn, ha, hcn, hcf, hlen⟩
      exact List.mem_append_right _ (mem_assessorSegments.mpr
        ⟨a, cn, ha, hcn, Or.inr (Or.inr (Or.inr ⟨d, hcf, hlen, rfl⟩))⟩)
  · -- advisor_directory
    constructor
    · intro hmem
      rcases List.mem_append.mp hmem with hmem | hmem
      · exact absurd hmem (not_mem_base mp mt
          (append_ne_lit_of_ne_at d _ 0 (by decide) (by decide))
          (append_ne_lit_of_ne_at d _ 3 (by decide) (by decide))
          (append_ne_lit_of_ne_at d _ 3 (by decide) (by decide)))
      · rcases mem_advisorSegments.mp hmem with h | ⟨b, hb, h⟩ | ⟨x, hx, hlen, h⟩ | ⟨x, hx, hlen, h⟩
        · exact absurd h (append_ne_of_ne_at d _ 11 (by decide) (by decide) (by decide))
        · exact absurd h (append_ne_of_ne_at d _ 11 (by decide) (by decide) (by decide))
        · obtain rfl := append_left_cancel_str h
          exact ⟨hx, hlen⟩
        · exact absurd h (append_ne_of_ne_at d _ 11 (by decide) (by decide) (by decide))
    · rintro ⟨hcd, hlen⟩
      exact List.mem_append_right _
        (mem_advisorSegments.mpr (Or.inr (Or.inr (Or.inl ⟨d, hcd, hlen, rfl⟩))))
  · -- advisor_class_filename
    constructor
    · intro hmem
      rcases List.mem_append.mp hmem with hmem | hmem
      · exact absurd hmem (not_mem_base mp mt
          (append_ne_lit_of_ne_at d _ 0 (by decide) (by decide))
          (append_ne_lit_of_ne_at d _ 3 (by decide) (by decide))
          (append_ne_lit_of_ne_at d _ 3 (by decide) (by decide)))
      · rcases mem_advisorSegments.mp hmem with h | ⟨b, hb, h⟩ | ⟨x, hx, hlen, h⟩ | ⟨x, hx, hlen, h⟩
        · exact absurd h (append_ne_of_ne_at d _ 17 (by decide) (by decide) (by decide))
        · exact absurd h (append_ne_of_ne_at d _ 11 (by decide) (by decide) (by decide))
        · exact absurd h (append_ne_of_ne_at d _ 11 (by decide) (by decide) (by decide))
        · obtain rfl := append_left_cancel_str h
          exact ⟨hx, hlen⟩
    · rintro ⟨hcf, hlen⟩
      exact List.mem_append_right _
        (mem_advisorSegments.mpr (Or.inr (Or.inr (Or.inr ⟨d, hcf, hlen, rfl⟩))))

/-- C8 counterexample: an assessor whose `className` is undefined but whose
`codeDir` is defined with length 3 produces a command line without any
`--assessor_directory` segment (the directory value appears nowhere in the
command), so "included iff present and longer than one character" fails
for assessor fields. -/
theorem dispatcher_optional_fields_counterexample :
    getMsgDispatcherCommand "linux"
        (some { className := some "T", classArgs := none, codeDir := none, classFileName := none })
        (some { className := none, classArgs := none, codeDir := some "/ab", classFileName := none })
        none false false
      = .ok "python3 -m nni --tuner_class_name T"
    ∧ (some "/ab" : Option String).isSome = true
    ∧ 1 < ("/ab" : String).length
    ∧ ¬ strContains " --assessor_directory /ab" "python3 -m nni --tuner_class_name T"
    ∧ ¬ strContains "/ab" "python3 -m nni --tuner_class_name T" :=
  ⟨rfl, rfl, by decide, by decide, by decide⟩

/-- C8 witness: concrete tuner and advisor specs with long-enough optional
fields; the corresponding segments are emitted. -/
theorem dispatcher_optional_fields_witness :
    dispatcherSegments "linux"
        (some { className := some "T", classArgs := none,
                codeDir := some "/tmp/x", classFileName := none }) none none false false
      = .ok ["python3 -m nni", " --tuner_class_name T", " --tuner_directory /tmp/x"]
    ∧ dispatcherSegments "linux" none none
        (some { className := some "A", classArgs := none,
                codeDir := none, classFileName := some "af.py" }) false false
      = .ok ["python3 -m nni", " --advisor_class_name A", " --advisor_class_filename af.py"]
    ∧ (" --tuner_directory " ++ "/tmp/x")
        ∈ ["python3 -m nni", " --tuner_class_name T", " --tuner_directory /tmp/x"]
    ∧ (" --advisor_class_filename " ++ "af.py")
        ∈ ["python3 -m nni", " --advisor_class_name A", " --advisor_class_filename af.py"] :=
  ⟨rfl, rfl,
    (dispatcher_optional_fields "linux" false false
      { className := some "T", classArgs := none, codeDir := some "/tmp/x", classFileName := none }
      { className := some "A", classArgs := none, codeDir := none, classFileName := some "af.py" }
      none
      ["python3 -m nni", " --tuner_class_name T", " --tuner_directory /tmp/x"]
      ["python3 -m nni", " --advisor_class_name A", " --advisor_class_filename af.py"]
      "/tmp/x" rfl rfl).1.mpr ⟨rfl, by decide⟩,
    (dispatcher_optional_fields "linux" false false
      { className := some "T", classArgs := none, codeDir := some "/tmp/x", classFileName := none }
      { className := some "A", classArgs := none, codeDir := none, classFileName := some "af.py" }
      none
      ["python3 -m nni", " --tuner_class_name T", " --tuner_directory /tmp/x"]
      ["python3 -m nni", " --advisor_class_name A", " --advisor_class_filename af.py"]
      "af.py" rfl rfl).2.2.2.2.2.mpr ⟨rfl, by decide⟩⟩
